import Mathlib

/-!
A verification development for the Spin SDK HTTP router (`src/src/lib.rs`).

The repository's own code (`Router`, `find`, `handle`, `add`, the builtin
`not_found` / `method_not_allowed` handlers) is embedded directly from
`src/src/lib.rs`.  The pattern-matching component (`routefinder`'s
`Router`/`best_match`/`Captures`) is an external crate whose code is not in
the repository; it is modelled from the specification's description of the
Pattern Matcher (spec §3, §4.1).
-/

namespace SpinSdkRouter

/-- An HTTP method (`http::Method`); only the standard verbs matter to the
router. -/
inductive Method where
  | GET | HEAD | POST | PUT | DELETE | PATCH | OPTIONS | CONNECT | TRACE
deriving DecidableEq

/-- The Spin SDK response type: a status plus an optional body
(`http::Response<Option<bytes::Bytes>>`); no headers are modelled since the
router never sets any. -/
structure Response where
  status : Nat
  body : Option String
deriving DecidableEq

/-- The Spin SDK request type (`http::Request<Option<bytes::Bytes>>`): the
method and URI path the router inspects, plus an opaque optional body. -/
structure Request where
  method : Method
  path : String
  body : Option String
deriving DecidableEq

/-- Modelled from the spec: `Captures` (routefinder) — a mapping from
parameter name to the matched substring, plus an optional wildcard capture
(spec §3). -/
structure Captures where
  params : List (String × String)
  wildcard : Option String
deriving DecidableEq

/-- The value `Captures::default()`: no parameters, no wildcard. -/
def Captures.default : Captures := ⟨[], none⟩

/-- A route handler: `dyn Fn(Request, Params) -> anyhow::Result<Response>`,
with the opaque `anyhow::Error` type abstracted as `ε`. -/
def Handler (ε : Type) : Type := Request → Captures → Except ε Response

/-- Modelled from the spec: a pattern segment — literal, named parameter, or
trailing wildcard (spec §3). -/
inductive Segment where
  | literal (text : String)
  | named (name : String)
  | wildcard
deriving DecidableEq

/-- Modelled from the spec: splitting a pattern or path on `/`, keeping only
non-empty pieces (spec §4.1: "Splits pattern_text on `/`. Each non-empty
piece becomes a segment"). Accumulates the current piece in reverse. -/
def splitSegs : List Char → List Char → List String
  | [], acc => if acc.isEmpty then [] else [String.mk acc.reverse]
  | c :: cs, acc =>
    if c = '/' then
      if acc.isEmpty then splitSegs cs [] else String.mk acc.reverse :: splitSegs cs []
    else
      splitSegs cs (c :: acc)

/-- Modelled from the spec: split a path or pattern string into its non-empty
`/`-separated pieces. -/
def splitPath (s : String) : List String := splitSegs s.data []

/-- Modelled from the spec: a piece beginning with `:` becomes a named
parameter, a lone `*` becomes a wildcard, anything else is a literal
(spec §4.1). -/
def parseSegment (s : String) : Segment :=
  match s.data with
  | ':' :: rest => Segment.named (String.mk rest)
  | _ => if s = "*" then Segment.wildcard else Segment.literal s

/-- An error reported by pattern registration: invalid pattern syntax or an
exact duplicate pattern (spec §7). -/
inductive RouteError where
  | invalid
  | duplicate
deriving DecidableEq

/-- Is this segment the wildcard segment? -/
def Segment.isWildcard : Segment → Bool
  | Segment.wildcard => true
  | _ => false

/-- Modelled from the spec: a `*` is only valid as the final segment
(spec §4.1). -/
def wildcardOnlyFinal (segs : List Segment) : Bool :=
  !(segs.dropLast.any Segment.isWildcard)

/-- Modelled from the spec: parse a pattern string into its segment list,
rejecting an empty pattern and a wildcard in non-final position
(spec §4.1, §7). -/
def parsePattern (text : String) : Except RouteError (List Segment) :=
  let pieces := splitPath text
  if pieces.isEmpty then
    Except.error RouteError.invalid
  else
    let segs := pieces.map parseSegment
    if wildcardOnlyFinal segs then Except.ok segs else Except.error RouteError.invalid

/-- Modelled from the spec: does the pattern match the path segments?  Every
non-wildcard pattern segment corresponds position-by-position to a path
segment (literal equality, or a named parameter matching any single segment),
and either the counts agree (no trailing wildcard) or the pattern ends in a
wildcard, which matches zero or more trailing segments (spec §4.1). -/
def matchesB : List Segment → List String → Bool
  | [], segs => segs.isEmpty
  | [Segment.wildcard], _ => true
  | Segment.literal text :: ps, s :: ss => text == s && matchesB ps ss
  | Segment.named _ :: ps, _ :: ss => matchesB ps ss
  | _, _ => false

/-- Modelled from the spec: re-join path segments with `/` for the wildcard
capture (spec §4.1). -/
def joinSegs : List String → String
  | [] => ""
  | [s] => s
  | s :: rest => s ++ "/" ++ joinSegs rest

/-- Modelled from the spec: the captures of a successful match — each named
parameter binds the path segment at its position, and a trailing wildcard
binds the remaining segments re-joined with `/` (spec §4.1). -/
def capturesOf : List Segment → List String → Captures
  | [Segment.wildcard], segs => { params := [], wildcard := some (joinSegs segs) }
  | Segment.literal _ :: ps, _ :: ss => capturesOf ps ss
  | Segment.named n :: ps, s :: ss =>
    let c := capturesOf ps ss
    { c with params := (n, s) :: c.params }
  | _, _ => Captures.default

/-- The number of literal segments of a pattern. -/
def litCount (p : List Segment) : Nat :=
  (p.filter (fun seg => match seg with | Segment.literal _ => true | _ => false)).length

/-- The number of named-parameter segments of a pattern. -/
def namedCount (p : List Segment) : Nat :=
  (p.filter (fun seg => match seg with | Segment.named _ => true | _ => false)).length

/-- Does the pattern contain a wildcard segment? -/
def hasWildcardB (p : List Segment) : Bool := p.any Segment.isWildcard

/-- Modelled from the spec: strict specificity ranking — more literal
segments beats fewer; among equal literal counts fewer named parameters beats
more; an exact non-wildcard pattern beats a wildcard pattern of otherwise
equal specificity (spec §4.1). -/
def moreSpecific (p q : List Segment) : Bool :=
  decide (litCount q < litCount p) ||
    (litCount p == litCount q &&
      (decide (namedCount p < namedCount q) ||
        (namedCount p == namedCount q && !hasWildcardB p && hasWildcardB q)))

/-- One registered route: the literal pattern text, its parsed segments and
the bound handler. -/
structure RouteEntry (ε : Type) where
  raw : String
  pattern : List Segment
  handler : Handler ε

/-- A successful match: the winning pattern, its handler and the captures. -/
structure Match (ε : Type) where
  pattern : List Segment
  handler : Handler ε
  params : Captures

/-- Modelled from the spec: one Pattern Matcher instance for one method
scope (routefinder's `Router<T>`), holding its routes in registration
order. -/
structure MethodRouter (ε : Type) where
  routes : List (RouteEntry ε)

/-- The empty Pattern Matcher (`MethodRouter::new`). -/
def MethodRouter.new {ε : Type} : MethodRouter ε := ⟨[]⟩

/-- Modelled from the spec: the highest-ranked matching route among a list,
with ties broken by registration order — the earliest-registered of the
matching routes is kept unless a later one is strictly more specific
(spec §3, §4.1). -/
def bestOf {ε : Type} : List (RouteEntry ε) → List String → Option (Match ε)
  | [], _ => none
  | e :: rest, segs =>
    if matchesB e.pattern segs then
      match bestOf rest segs with
      | none => some ⟨e.pattern, e.handler, capturesOf e.pattern segs⟩
      | some m =>
        if moreSpecific m.pattern e.pattern then some m
        else some ⟨e.pattern, e.handler, capturesOf e.pattern segs⟩
    else bestOf rest segs

/-- Modelled from the spec: `best_match(path)` — split the path, return the
highest-ranked match with its captures, or none (spec §4.1). -/
def MethodRouter.best_match {ε : Type} (t : MethodRouter ε) (path : String) :
    Option (Match ε) :=
  bestOf t.routes (splitPath path)

/-- Modelled from the spec: register a pattern with its handler, rejecting an
invalid pattern and an exact duplicate of an already-registered pattern text
(spec §4.1). -/
def MethodRouter.add {ε : Type} (t : MethodRouter ε) (path : String) (h : Handler ε) :
    Except RouteError (MethodRouter ε) :=
  match parsePattern path with
  | Except.error e => Except.error e
  | Except.ok segs =>
    if t.routes.any (fun e => e.raw == path) then
      Except.error RouteError.duplicate
    else
      Except.ok ⟨t.routes ++ [⟨path, segs, h⟩]⟩

/-- The Spin SDK HTTP router: one Pattern Matcher per registered method
(`methods_map : HashMap<http::Method, MethodRouter<_>>`, modelled as an
association list with distinct keys maintained by insertion) plus one
any-method Pattern Matcher (`all_methods`). -/
structure Router (ε : Type) where
  methods_map : List (Method × MethodRouter ε)
  all_methods : MethodRouter ε

/-- `Router::new`: empty method map, empty any-method table. -/
def Router.new {ε : Type} : Router ε := ⟨[], MethodRouter.new⟩

/-- `HashMap::get`: look up the Pattern Matcher registered for a method. -/
def lookupMethod {ε : Type} : List (Method × MethodRouter ε) → Method → Option (MethodRouter ε)
  | [], _ => none
  | (k, t) :: rest, m => if k = m then some t else lookupMethod rest m

/-- `HashMap::entry(..).or_insert_with(..)` followed by writing back the
updated table: replace the entry for the key in place, or append a new
entry. -/
def insertMethod {ε : Type} :
    List (Method × MethodRouter ε) → Method → MethodRouter ε → List (Method × MethodRouter ε)
  | [], k, v => [(k, v)]
  | (k0, v0) :: rest, k, v =>
    if k0 = k then (k, v) :: rest else (k0, v0) :: insertMethod rest k v

/-- The struct returned by `Router::find`: the captured parameters and the
handler to invoke. -/
structure RouteMatch (ε : Type) where
  params : Captures
  handler : Handler ε

/-- The builtin handler `not_found`: status 404, no body (`src/src/lib.rs`
lines 169-174). -/
def not_found {ε : Type} : Handler ε :=
  fun _ _ => Except.ok { status := 404, body := none }

/-- The builtin handler `method_not_allowed`: status 405, no body
(`src/src/lib.rs` lines 176-181). -/
def method_not_allowed {ε : Type} : Handler ε :=
  fun _ _ => Except.ok { status := 405, body := none }

/-- `Router::find` (`src/src/lib.rs` lines 43-90): the method-specific table
first; then the any-method table; then, for HEAD, the same lookup again with
GET; then the cross-method scan deciding between the builtin 405 and 404
handlers. -/
def Router.find {ε : Type} (r : Router ε) (path : String) (method : Method) :
    RouteMatch ε :=
  match (lookupMethod r.methods_map method).bind (fun t => t.best_match path) with
  | some m => { params := m.params, handler := m.handler }
  | none =>
    match r.all_methods.best_match path with
    | some m => { params := m.params, handler := m.handler }
    | none =>
      if hh : method = Method.HEAD then
        r.find path Method.GET
      else if (r.methods_map.filter (fun e => e.1 != method)).any
          (fun e => (e.2.best_match path).isSome) then
        { params := Captures.default, handler := method_not_allowed }
      else
        { params := Captures.default, handler := not_found }
termination_by (if method = Method.HEAD then 1 else 0)
decreasing_by
  subst hh
  decide

/-- `Router::handle`: dispatch a request to the handler chosen by `find`,
passing the request and the captured parameters. -/
def Router.handle {ε : Type} (r : Router ε) (request : Request) : Except ε Response :=
  let method := request.method
  let path := request.path
  let rm := r.find path method
  rm.handler request rm.params

/-- `Router::add`: register a handler for a pattern under one method.  The
source unwraps the Pattern Matcher's registration result; the panic is
modelled as propagating the error. -/
def Router.add {ε : Type} (r : Router ε) (path : String) (method : Method)
    (h : Handler ε) : Except RouteError (Router ε) :=
  match ((lookupMethod r.methods_map method).getD MethodRouter.new).add path h with
  | Except.error e => Except.error e
  | Except.ok t => Except.ok ⟨insertMethod r.methods_map method t, r.all_methods⟩

/-- `Router::all`: register a handler for a pattern in the any-method
table. -/
def Router.all {ε : Type} (r : Router ε) (path : String) (h : Handler ε) :
    Except RouteError (Router ε) :=
  match r.all_methods.add path h with
  | Except.error e => Except.error e
  | Except.ok t => Except.ok ⟨r.methods_map, t⟩

/-- `Router::get`: register a handler for the GET method. -/
def Router.get {ε : Type} (r : Router ε) (path : String) (h : Handler ε) :
    Except RouteError (Router ε) :=
  r.add path Method.GET h

/-! Helper lemmas about the method map. -/

theorem lookupMethod_mem {ε : Type} {l : List (Method × MethodRouter ε)} {k : Method}
    {t : MethodRouter ε} (h : lookupMethod l k = some t) : (k, t) ∈ l := by
  induction l with
  | nil => simp [lookupMethod] at h
  | cons e rest ih =>
    obtain ⟨k0, t0⟩ := e
    by_cases hk : k0 = k
    · subst hk
      simp [lookupMethod] at h
      subst h
      exact List.mem_cons_self _ _
    · rw [lookupMethod, if_neg hk] at h
      exact List.mem_cons_of_mem _ (ih h)

theorem lookupMethod_of_mem {ε : Type} {l : List (Method × MethodRouter ε)} {k : Method}
    {t : MethodRouter ε} (hnd : l.Pairwise (fun a b => a.1 ≠ b.1)) (h : (k, t) ∈ l) :
    lookupMethod l k = some t := by
  induction l with
  | nil => simp at h
  | cons e rest ih =>
    obtain ⟨k0, t0⟩ := e
    rcases List.mem_cons.mp h with h0 | h0
    · cases h0
      rw [lookupMethod, if_pos rfl]
    · have hne : k0 ≠ k := by
        have := (List.pairwise_cons.mp hnd).1 (k, t) h0
        simpa using this
      rw [lookupMethod, if_neg hne]
      exact ih (List.pairwise_cons.mp hnd).2 h0

theorem lookupMethod_insertMethod {ε : Type} (l : List (Method × MethodRouter ε))
    (k : Method) (v : MethodRouter ε) :
    lookupMethod (insertMethod l k v) k = some v := by
  induction l with
  | nil => simp [insertMethod, lookupMethod]
  | cons e rest ih =>
    obtain ⟨k0, t0⟩ := e
    by_cases hk : k0 = k
    · rw [insertMethod, if_pos hk, lookupMethod, if_pos rfl]
    · rw [insertMethod, if_neg hk, lookupMethod, if_neg hk]
      exact ih

/-! Claim C1: the method-specific table is consulted first. -/

/-- Claim C1: for every request, if the Pattern Matcher registered for the
request's own method yields a best match, dispatch invokes the bound handler
with the request and captures and returns its result; the any-method table is
never consulted (the outcome is the same for every any-method table). -/
theorem find_prefers_method_table {ε : Type} (r : Router ε) (req : Request) (m : Match ε)
    (h : (lookupMethod r.methods_map req.method).bind (fun t => t.best_match req.path) =
      some m) :
    r.handle req = m.handler req m.params ∧
    ∀ alt : MethodRouter ε,
      (Router.mk r.methods_map alt).handle req = m.handler req m.params := by
  constructor
  · show (r.find req.path req.method).handler req (r.find req.path req.method).params = _
    rw [Router.find, h]
  · intro alt
    show ((Router.mk r.methods_map alt).find req.path req.method).handler req
        ((Router.mk r.methods_map alt).find req.path req.method).params = _
    rw [Router.find]
    rw [show (Router.mk r.methods_map alt).methods_map = r.methods_map from rfl, h]

/-! Claim C4: HEAD falls back to GET. -/

/-- Claim C4: if the HEAD table yields no match for a path and the any-method table
yields none either, a HEAD lookup equals the GET lookup for the same path —
the same handler and the same captures are selected. -/
theorem head_falls_back_to_get {ε : Type} (r : Router ε) (path : String)
    (hhead : ∀ t, lookupMethod r.methods_map Method.HEAD = some t →
      t.best_match path = none)
    (hall : r.all_methods.best_match path = none) :
    r.find path Method.HEAD = r.find path Method.GET := by
  have hbind : (lookupMethod r.methods_map Method.HEAD).bind
      (fun t => t.best_match path) = none := by
    cases hlm : lookupMethod r.methods_map Method.HEAD with
    | none => rfl
    | some t => simpa using hhead t hlm
  conv_lhs => rw [Router.find]
  rw [hbind, hall]
  rfl

/-! Claim C9: handler results pass through unchanged. -/

/-- Claim C9: whatever handler `find` selects for a request, `handle` returns
exactly that handler's result; in particular a handler error is propagated
unchanged. -/
theorem handler_result_passthrough {ε : Type} (r : Router ε) (req : Request)
    (p : Captures) (h : Handler ε)
    (hfind : r.find req.path req.method = { params := p, handler := h }) :
    r.handle req = h req p ∧
    ∀ e : ε, h req p = Except.error e → r.handle req = Except.error e := by
  have h1 : r.handle req = h req p := by
    show (r.find req.path req.method).handler req (r.find req.path req.method).params = _
    rw [hfind]
  exact ⟨h1, fun e he => h1.trans he⟩

/-! Claims C2 and C3: the 405 and 404 policies. -/

/-- Claim C3: if no method-specific table and not the any-method table yields a
match for the request's path, `find` selects the builtin `not_found` handler
with empty captures and dispatch returns status 404 with no body. -/
theorem dispatch_not_found {ε : Type} (r : Router ε) (req : Request)
    (hnone : ∀ e ∈ r.methods_map, (Prod.snd e).best_match req.path = none)
    (hall : r.all_methods.best_match req.path = none) :
    r.find req.path req.method = { params := Captures.default, handler := not_found } ∧
    r.handle req = Except.ok { status := 404, body := none } := by
  have hbind : ∀ meth, (lookupMethod r.methods_map meth).bind
      (fun t => t.best_match req.path) = none := by
    intro meth
    cases hlm : lookupMethod r.methods_map meth with
    | none => rfl
    | some t => simpa using hnone (meth, t) (lookupMethod_mem hlm)
  have hscan : ∀ meth, ((r.methods_map.filter (fun e => e.1 != meth)).any
      (fun e => ((Prod.snd e).best_match req.path).isSome)) = false := by
    intro meth
    rw [List.any_eq_false]
    intro e he
    rw [hnone e (List.mem_of_mem_filter he)]
    simp
  have hfind : r.find req.path req.method =
      { params := Captures.default, handler := not_found } := by
    by_cases hm : req.method = Method.HEAD
    · rw [Router.find, hbind, hall, dif_pos hm]
      rw [Router.find, hbind, hall,
        dif_neg (by decide : ¬ (Method.GET = Method.HEAD))]
      simp [hscan]
    · rw [Router.find, hbind, hall, dif_neg hm]
      simp [hscan]
  refine ⟨hfind, ?_⟩
  show (r.find req.path req.method).handler req (r.find req.path req.method).params = _
  rw [hfind]
  rfl

/-- Claim C2: if the request's own method table yields no match, the any-method
table yields none, for a HEAD request the GET table yields none either, and
the method map has distinct keys (a `HashMap` invariant), but some table
registered under a different method does match the path, then `find` selects
the builtin `method_not_allowed` handler with empty captures and dispatch
returns status 405 with no body. -/
theorem dispatch_method_not_allowed {ε : Type} (r : Router ε) (req : Request)
    (hkeys : r.methods_map.Pairwise (fun a b => a.1 ≠ b.1))
    (hown : ∀ t, lookupMethod r.methods_map req.method = some t →
      t.best_match req.path = none)
    (hall : r.all_methods.best_match req.path = none)
    (hget : req.method = Method.HEAD →
      ∀ t, lookupMethod r.methods_map Method.GET = some t →
        t.best_match req.path = none)
    (hother : ∃ e ∈ r.methods_map,
      Prod.fst e ≠ req.method ∧ ((Prod.snd e).best_match req.path).isSome) :
    r.find req.path req.method =
      { params := Captures.default, handler := method_not_allowed } ∧
    r.handle req = Except.ok { status := 405, body := none } := by
  have hbind : (lookupMethod r.methods_map req.method).bind
      (fun t => t.best_match req.path) = none := by
    cases hlm : lookupMethod r.methods_map req.method with
    | none => rfl
    | some t => simpa using hown t hlm
  have hfind : r.find req.path req.method =
      { params := Captures.default, handler := method_not_allowed } := by
    by_cases hm : req.method = Method.HEAD
    · have hbind2 : (lookupMethod r.methods_map Method.GET).bind
          (fun t => t.best_match req.path) = none := by
        cases hlm : lookupMethod r.methods_map Method.GET with
        | none => rfl
        | some t => simpa using hget hm t hlm
      have hscan : ((r.methods_map.filter (fun e => e.1 != Method.GET)).any
          (fun e => ((Prod.snd e).best_match req.path).isSome)) = true := by
        obtain ⟨e, he, hne, hsome⟩ := hother
        have hneget : Prod.fst e ≠ Method.GET := by
          intro hg
          have hl : lookupMethod r.methods_map Method.GET = some (Prod.snd e) := by
            apply lookupMethod_of_mem hkeys
            rw [← hg]
            exact he
          rw [hget hm (Prod.snd e) hl] at hsome
          simp at hsome
        refine List.any_eq_true.mpr ⟨e, List.mem_filter.mpr ⟨he, ?_⟩, hsome⟩
        simpa using hneget
      rw [Router.find, hbind, hall, dif_pos hm]
      rw [Router.find, hbind2, hall,
        dif_neg (by decide : ¬ (Method.GET = Method.HEAD))]
      simp [hscan]
    · have hscan : ((r.methods_map.filter (fun e => e.1 != req.method)).any
          (fun e => ((Prod.snd e).best_match req.path).isSome)) = true := by
        obtain ⟨e, he, hne, hsome⟩ := hother
        refine List.any_eq_true.mpr ⟨e, List.mem_filter.mpr ⟨he, ?_⟩, hsome⟩
        simpa using hne
      rw [Router.find, hbind, hall, dif_neg hm]
      simp [hscan]
  refine ⟨hfind, ?_⟩
  show (r.find req.path req.method).handler req (r.find req.path req.method).params = _
  rw [hfind]
  rfl

/-! Claim C8: wildcard captures. -/

theorem bestOf_some {ε : Type} {routes : List (RouteEntry ε)} {segs : List String}
    {m : Match ε} (h : bestOf routes segs = some m) :
    matchesB m.pattern segs = true ∧ m.params = capturesOf m.pattern segs := by
  induction routes with
  | nil => simp [bestOf] at h
  | cons e rest ih =>
    rw [bestOf] at h
    by_cases hm : matchesB e.pattern segs = true
    · rw [if_pos hm] at h
      cases hb : bestOf rest segs with
      | none =>
        simp only [hb] at h
        obtain rfl : (⟨e.pattern, e.handler, capturesOf e.pattern segs⟩ : Match ε) = m :=
          Option.some.inj h
        exact ⟨hm, rfl⟩
      | some b =>
        simp only [hb] at h
        by_cases hs : moreSpecific b.pattern e.pattern = true
        · rw [if_pos hs] at h
          obtain rfl : b = m := Option.some.inj h
          exact ih hb
        · rw [if_neg hs] at h
          obtain rfl : (⟨e.pattern, e.handler, capturesOf e.pattern segs⟩ : Match ε) = m :=
            Option.some.inj h
          exact ⟨hm, rfl⟩
    · rw [if_neg hm] at h
      exact ih h

theorem capturesOf_spec (pat : List Segment) :
    ∀ segs : List String, matchesB pat segs = true →
    (hasWildcardB pat = true →
      pat.getLast? = some Segment.wildcard ∧
      (capturesOf pat segs).wildcard = some (joinSegs (segs.drop (pat.length - 1)))) ∧
    (hasWildcardB pat = false → (capturesOf pat segs).wildcard = none) := by
  induction pat with
  | nil =>
    intro segs h
    refine ⟨fun hw => by simp [hasWildcardB] at hw, fun _ => rfl⟩
  | cons p ps ih =>
    intro segs h
    cases p with
    | wildcard =>
      cases ps with
      | nil =>
        refine ⟨fun _ => ⟨rfl, ?_⟩, fun hf => by simp [hasWildcardB, Segment.isWildcard] at hf⟩
        simp [capturesOf]
      | cons q qs =>
        cases segs <;> simp [matchesB] at h
    | literal text =>
      cases segs with
      | nil => simp [matchesB] at h
      | cons s ss =>
        rw [matchesB, Bool.and_eq_true] at h
        have ihp := ih ss h.2
        constructor
        · intro hw
          have hwps : hasWildcardB ps = true := by
            simpa [hasWildcardB, Segment.isWildcard] using hw
          obtain ⟨hlast, hcap⟩ := ihp.1 hwps
          cases ps with
          | nil => simp [hasWildcardB] at hwps
          | cons p2 ps2 =>
            refine ⟨by rw [List.getLast?_cons_cons]; exact hlast, ?_⟩
            show (capturesOf (Segment.literal text :: p2 :: ps2) (s :: ss)).wildcard = _
            rw [capturesOf]
            simpa using hcap
        · intro hf
          have hfps : hasWildcardB ps = false := by
            simpa [hasWildcardB, Segment.isWildcard] using hf
          rw [capturesOf]
          exact ihp.2 hfps
    | named n =>
      cases segs with
      | nil => simp [matchesB] at h
      | cons s ss =>
        rw [matchesB] at h
        have ihp := ih ss h
        constructor
        · intro hw
          have hwps : hasWildcardB ps = true := by
            simpa [hasWildcardB, Segment.isWildcard] using hw
          obtain ⟨hlast, hcap⟩ := ihp.1 hwps
          cases ps with
          | nil => simp [hasWildcardB] at hwps
          | cons p2 ps2 =>
            refine ⟨by rw [List.getLast?_cons_cons]; exact hlast, ?_⟩
            show (capturesOf (Segment.named n :: p2 :: ps2) (s :: ss)).wildcard = _
            rw [capturesOf]
            simpa using hcap
        · intro hf
          have hfps : hasWildcardB ps = false := by
            simpa [hasWildcardB, Segment.isWildcard] using hf
          rw [capturesOf]
          exact ihp.2 hfps

/-- Claim C8: if `best_match` succeeds and the winning pattern contains a wildcard,
the wildcard is its final segment and the wildcard capture is the path suffix
beyond the pattern's non-wildcard prefix, re-joined with `/`; if the winning
pattern has no wildcard, no wildcard capture is present. -/
theorem wildcard_capture_suffix {ε : Type} (t : MethodRouter ε) (path : String)
    (m : Match ε) (h : t.best_match path = some m) :
    (hasWildcardB m.pattern = true →
      m.pattern.getLast? = some Segment.wildcard ∧
      m.params.wildcard =
        some (joinSegs ((splitPath path).drop (m.pattern.length - 1)))) ∧
    (hasWildcardB m.pattern = false → m.params.wildcard = none) := by
  have h0 : bestOf t.routes (splitPath path) = some m := h
  obtain ⟨hm, hp⟩ := bestOf_some h0
  rw [hp]
  exact capturesOf_spec m.pattern (splitPath path) hm

/-! Claim C6: duplicate registration is rejected. -/

/-- Claim C6: once `add` has accepted a pattern under a method, a second `add` of
the exact same pattern text under the same method reports a duplicate error
at registration time; the registered table is not silently overwritten,
since no new router value is produced. -/
theorem duplicate_add_rejected {ε : Type} (r r' : Router ε) (path : String)
    (method : Method) (h1 h2 : Handler ε)
    (hadd : r.add path method h1 = Except.ok r') :
    r'.add path method h2 = Except.error RouteError.duplicate := by
  rw [Router.add] at hadd
  cases hma : ((lookupMethod r.methods_map method).getD MethodRouter.new).add path h1 with
  | error e =>
    simp only [hma] at hadd
    exact Except.noConfusion hadd
  | ok tnew =>
    simp only [hma] at hadd
    obtain rfl : (⟨insertMethod r.methods_map method tnew, r.all_methods⟩ : Router ε) = r' :=
      Except.ok.inj hadd
    rw [MethodRouter.add] at hma
    cases hparse : parsePattern path with
    | error e =>
      simp only [hparse] at hma
      exact Except.noConfusion hma
    | ok segs =>
      simp only [hparse] at hma
      by_cases hdup : (((lookupMethod r.methods_map method).getD MethodRouter.new).routes.any
          (fun e => e.raw == path)) = true
      · rw [if_pos hdup] at hma
        exact Except.noConfusion hma
      · rw [if_neg hdup] at hma
        obtain rfl : (⟨((lookupMethod r.methods_map method).getD MethodRouter.new).routes ++
            [⟨path, segs, h1⟩]⟩ : MethodRouter ε) = tnew := Except.ok.inj hma
        simp only [Router.add, lookupMethod_insertMethod, Option.getD_some,
          MethodRouter.add, hparse, List.any_append, List.any_cons, List.any_nil,
          beq_self_eq_true, Bool.or_true, Bool.or_false, if_true]

/-! Claim C10: find is total and its result is always one of four shapes. -/

/-- Claim C10: for every router, path and method, `find` returns exactly one
handler-captures pair, and it is one of: the request method's own table
match, an any-method table match, a GET-table match reached through the
HEAD-to-GET fallback, the builtin `method_not_allowed`, or the builtin
`not_found` — a failed lookup can never make dispatch undefined. -/
theorem find_total_classification {ε : Type} (r : Router ε) (path : String)
    (method : Method) :
    (∃ m : Match ε,
        (lookupMethod r.methods_map method).bind (fun t => t.best_match path) = some m ∧
        r.find path method = { params := m.params, handler := m.handler }) ∨
    (∃ m : Match ε, r.all_methods.best_match path = some m ∧
        r.find path method = { params := m.params, handler := m.handler }) ∨
    (method = Method.HEAD ∧ ∃ m : Match ε,
        (lookupMethod r.methods_map Method.GET).bind (fun t => t.best_match path) = some m ∧
        r.find path method = { params := m.params, handler := m.handler }) ∨
    r.find path method = { params := Captures.default, handler := method_not_allowed } ∨
    r.find path method = { params := Captures.default, handler := not_found } := by
  cases hbind : (lookupMethod r.methods_map method).bind (fun t => t.best_match path) with
  | some m =>
    exact Or.inl ⟨m, rfl, by rw [Router.find, hbind]⟩
  | none =>
    cases hall : r.all_methods.best_match path with
    | some m =>
      exact Or.inr (Or.inl ⟨m, rfl, by rw [Router.find, hbind, hall]⟩)
    | none =>
      by_cases hm : method = Method.HEAD
      · have hfg : r.find path method = r.find path Method.GET := by
          rw [Router.find, hbind, hall, dif_pos hm]
        cases hbind2 : (lookupMethod r.methods_map Method.GET).bind
            (fun t => t.best_match path) with
        | some m =>
          exact Or.inr (Or.inr (Or.inl ⟨hm, m, rfl, by
            rw [hfg, Router.find, hbind2]⟩))
        | none =>
          cases hscan : ((r.methods_map.filter (fun e => e.1 != Method.GET)).any
              (fun e => ((Prod.snd e).best_match path).isSome)) with
          | true =>
            refine Or.inr (Or.inr (Or.inr (Or.inl ?_)))
            rw [hfg, Router.find, hbind2, hall,
              dif_neg (by decide : ¬ (Method.GET = Method.HEAD))]
            simp [hscan]
          | false =>
            refine Or.inr (Or.inr (Or.inr (Or.inr ?_)))
            rw [hfg, Router.find, hbind2, hall,
              dif_neg (by decide : ¬ (Method.GET = Method.HEAD))]
            simp [hscan]
      · cases hscan : ((r.methods_map.filter (fun e => e.1 != method)).any
            (fun e => ((Prod.snd e).best_match path).isSome)) with
        | true =>
          refine Or.inr (Or.inr (Or.inr (Or.inl ?_)))
          rw [Router.find, hbind, hall, dif_neg hm]
          simp [hscan]
        | false =>
          refine Or.inr (Or.inr (Or.inr (Or.inr ?_)))
          rw [Router.find, hbind, hall, dif_neg hm]
          simp [hscan]

/-! Concrete routers, mirroring the tests in `src/src/lib.rs`. -/

/-- A handler answering 200 with a fixed body. -/
def okHandler (b : String) : Handler String :=
  fun _ _ => Except.ok { status := 200, body := some b }

/-- The handler `h1` of `test_ambiguous_wildcard_vs_star`. -/
def ambParamHandler : Handler String := okHandler "one/two"

/-- The handler `h2` of `test_ambiguous_wildcard_vs_star`. -/
def ambStarHandler : Handler String := okHandler "posts/*"

/-- The router of `test_ambiguous_wildcard_vs_star`: `/:one/:two` and
`/posts/*` both under GET, in that registration order. -/
def ambRouter : Router String :=
  ⟨[(Method.GET,
      ⟨[⟨"/:one/:two", [Segment.named "one", Segment.named "two"], ambParamHandler⟩,
        ⟨"/posts/*", [Segment.literal "posts", Segment.wildcard], ambStarHandler⟩]⟩)],
    MethodRouter.new⟩

/-- The handler of `test_not_found`, also reused for the HEAD fallback and
lookup-order witnesses. -/
def helloHandler : Handler String := okHandler "hello"

/-- A router with `/hello/:planet` registered under GET only. -/
def helloRouter : Router String :=
  ⟨[(Method.GET,
      ⟨[⟨"/hello/:planet", [Segment.literal "hello", Segment.named "planet"], helloHandler⟩]⟩)],
    MethodRouter.new⟩

/-! Claim C5: literal-prefix specificity beats parameter-first specificity. -/

/-- Claim C5: with `/:one/:two` and `/posts/*` both registered under GET (built by
two `get` registrations from the empty router), GET `/posts/2` dispatches to
the `/posts/*` handler: its leading literal segment outranks a pattern whose
first segment is a named parameter. -/
theorem posts_wildcard_beats_params :
    ((Router.new.get "/:one/:two" ambParamHandler).bind
        (fun r => r.get "/posts/*" ambStarHandler) = Except.ok ambRouter) ∧
    (ambRouter.find "/posts/2" Method.GET).handler = ambStarHandler ∧
    ambRouter.handle { method := Method.GET, path := "/posts/2", body := none } =
      Except.ok { status := 200, body := some "posts/*" } := by
  refine ⟨rfl, ?_, ?_⟩
  · rw [Router.find]; rfl
  · show (ambRouter.find "/posts/2" Method.GET).handler _
        (ambRouter.find "/posts/2" Method.GET).params = _
    rw [Router.find]; rfl

/-! Claim C7: an empty trailing segment does not satisfy a named parameter. -/

/-- Claim C7: with `/hello/:planet` registered under GET (built by one `get`
registration), a GET request for `/hello/` matches nothing: `find` selects
the builtin `not_found` handler and dispatch returns 404 with no body. -/
theorem hello_trailing_slash_not_found :
    (Router.new.get "/hello/:planet" helloHandler = Except.ok helloRouter) ∧
    helloRouter.find "/hello/" Method.GET =
      { params := Captures.default, handler := not_found } ∧
    helloRouter.handle { method := Method.GET, path := "/hello/", body := none } =
      Except.ok { status := 404, body := none } := by
  refine ⟨rfl, ?_, ?_⟩
  · rw [Router.find]; rfl
  · show (helloRouter.find "/hello/" Method.GET).handler _
        (helloRouter.find "/hello/" Method.GET).params = _
    rw [Router.find]; rfl

/-! Witness theorems at concrete routers and requests. -/

/-- The GET request for `/hello/world`. -/
def helloWorldReq : Request := ⟨Method.GET, "/hello/world", none⟩

/-- The method-table match that `helloRouter` produces for `/hello/world`. -/
def helloWorldMatch : Match String :=
  ⟨[Segment.literal "hello", Segment.named "planet"], helloHandler,
    ⟨[("planet", "world")], none⟩⟩

/-- Witness for C1 at a concrete router and request. -/
theorem find_prefers_method_table_witness :
    helloRouter.handle helloWorldReq = Except.ok { status := 200, body := some "hello" } :=
  ((find_prefers_method_table helloRouter helloWorldReq helloWorldMatch rfl).1).trans rfl

/-- A POST-only route table used by the 405 witness. -/
def submitTable : MethodRouter String :=
  ⟨[⟨"/submit", [Segment.literal "submit"], okHandler "created"⟩]⟩

/-- A router with `/submit` registered under POST only. -/
def submitRouter : Router String := ⟨[(Method.POST, submitTable)], MethodRouter.new⟩

/-- Witness for C2: a GET request to a POST-only path yields 405. -/
theorem dispatch_method_not_allowed_witness :
    submitRouter.handle ⟨Method.GET, "/submit", none⟩ =
      Except.ok { status := 405, body := none } :=
  (dispatch_method_not_allowed submitRouter ⟨Method.GET, "/submit", none⟩
    (List.pairwise_singleton _ _)
    (fun _ ht => Option.noConfusion ht)
    rfl
    (fun hm => absurd hm (by decide))
    ⟨(Method.POST, submitTable), List.mem_singleton.mpr rfl, by decide, rfl⟩).2

/-- Witness for C3: a GET request to an unregistered path yields 404. -/
theorem dispatch_not_found_witness :
    helloRouter.handle ⟨Method.GET, "/nope", none⟩ =
      Except.ok { status := 404, body := none } :=
  (dispatch_not_found helloRouter ⟨Method.GET, "/nope", none⟩
    (by intro e he; cases List.mem_singleton.mp he; rfl)
    rfl).2

/-- Witness for C4: a HEAD lookup on a GET-only route equals the GET
lookup. -/
theorem head_falls_back_to_get_witness :
    helloRouter.find "/hello/world" Method.HEAD =
      helloRouter.find "/hello/world" Method.GET :=
  head_falls_back_to_get helloRouter "/hello/world"
    (fun _ ht => Option.noConfusion ht) rfl

/-- A handler that fails with an error. -/
def failingHandler : Handler String := fun _ _ => Except.error "boom"

/-- A router whose only GET route has a failing handler. -/
def failRouter : Router String :=
  ⟨[(Method.GET, ⟨[⟨"/fail", [Segment.literal "fail"], failingHandler⟩]⟩)],
    MethodRouter.new⟩

/-- Witness for C9: the handler's error comes back unchanged from
dispatch. -/
theorem handler_result_passthrough_witness :
    failRouter.handle ⟨Method.GET, "/fail", none⟩ = Except.error "boom" :=
  (handler_result_passthrough failRouter ⟨Method.GET, "/fail", none⟩
    ⟨[], none⟩ failingHandler (by rw [Router.find]; rfl)).2 "boom" rfl

/-- The router obtained by registering `/dup` under GET once. -/
def dupRouter : Router String :=
  ⟨[(Method.GET, ⟨[⟨"/dup", [Segment.literal "dup"], okHandler "dup"⟩]⟩)],
    MethodRouter.new⟩

/-- Witness for C6: re-registering `/dup` under GET is a duplicate error. -/
theorem duplicate_add_rejected_witness :
    dupRouter.add "/dup" Method.GET (okHandler "dup") =
      Except.error RouteError.duplicate :=
  duplicate_add_rejected Router.new dupRouter "/dup" Method.GET
    (okHandler "dup") (okHandler "dup") rfl

/-- A one-route table with the wildcard pattern `/posts/*`. -/
def wildTable : MethodRouter String :=
  ⟨[⟨"/posts/*", [Segment.literal "posts", Segment.wildcard], okHandler "wild"⟩]⟩

/-- The match `wildTable` produces for `/posts/a/b`. -/
def wildMatch : Match String :=
  ⟨[Segment.literal "posts", Segment.wildcard], okHandler "wild", ⟨[], some "a/b"⟩⟩

/-- Witness for C8: the wildcard capture for `/posts/a/b` under `/posts/*`
is the re-joined suffix `a/b`. -/
theorem wildcard_capture_suffix_witness :
    wildMatch.params.wildcard =
      some (joinSegs ((splitPath "/posts/a/b").drop (wildMatch.pattern.length - 1))) ∧
    wildMatch.params.wildcard = some "a/b" :=
  ⟨((wildcard_capture_suffix wildTable "/posts/a/b" wildMatch rfl).1 rfl).2, rfl⟩

end SpinSdkRouter
